import Mathlib

/-!
Shallow embedding of the coco `State` facade (`proxy/coco/src/state.rs`)
of radicle-upstream: identity listing, tracking management, default-branch
resolution and the include-artifact regeneration logic.

Identifiers (urns, peer ids, public keys) are modelled as naturals; the
storage substrate (librad, an external dependency) is modelled as a record
of fallible primitives, each returning `Except StoreErr`, mirroring the
`storage.*` calls made inside `with_storage` closures.  Mutation of the
tracking graph, the gossip query log and the include artifact are modelled
by explicit state passing on a `World` record.
-/

/-- Content-derived identifier of an identity document (RadUrn; we model the
urn by its id component, which is what NamespacedRef construction uses). -/
abbrev Urn := Nat

/-- Public-key-derived identifier of a network participant. -/
abbrev PeerId := Nat

/-- A public key recorded in a project's key set at creation time. -/
abbrev Key := Nat

/-- Opaque error produced by the storage substrate, wrapped by this layer. -/
abbrev StoreErr := Nat

-- Decidable equality of Except results, used to evaluate operations on
-- concrete inputs.
deriving instance DecidableEq for Except

/-- Models the PeerId::from conversion of a public key. -/
def PeerId.fromKey (k : Key) : PeerId := k

/-- A user identity document (user::User): urn plus display name. -/
structure User where
  urn : Urn
  name : String
deriving DecidableEq

/-- A project identity document (librad_project::Project): urn, name, the
declared default branch, the maintainer set and the key set recorded at
creation time. -/
structure Project where
  urn : Urn
  name : String
  default_branch : String
  maintainers : List Urn
  keys : List Key
deriving DecidableEq

/-- An identity document as yielded by all_metadata: a user or a project. -/
inductive Entity where
  | user (info : User)
  | project (info : Project)
deriving DecidableEq

/-- The urn of an entity. -/
def Entity.urn : Entity → Urn
  | .user u => u.urn
  | .project p => p.urn

/-- Models entity.try_map over EntityInfo::Project: keep project entities. -/
def Entity.tryMapProject : Entity → Option Project
  | .project p => some p
  | _ => none

/-- Models entity.try_map over EntityInfo::User: keep user entities. -/
def Entity.tryMapUser : Entity → Option User
  | .user u => some u
  | _ => none

/-- A fully qualified reference (NamespacedRef): either a head under an
optional remote peer namespace, or a peer's rad/self reference. -/
inductive Ref where
  | head (ns : Urn) (remote : Option PeerId) (name : String)
  | radSelf (ns : Urn) (peer : PeerId)
deriving DecidableEq

/-- The signed refs of a peer for a project (librad Refs); only the heads
component is consulted by this layer. -/
structure Refs where
  heads : List String
deriving DecidableEq

/-- The error type of the state facade (state::error::Error), restricted to
the variants this layer produces on the modelled operations. -/
inductive Error where
  | storage (e : StoreErr)
  | missingRef (reference : Ref)
  | noDefaultBranch (name : String) (urn : Urn)
  | parseFailed
  | panicNoOwner
deriving DecidableEq

/-- Whether an error is the MissingRef variant (the variant the branch
resolver uses internally for its fallback). -/
def Error.isMissingRef : Error → Bool
  | .missingRef _ => true
  | _ => false

/-- Derived role of a peer in a project (peer::Role). -/
inductive Role where
  | maintainer
  | contributor
  | tracker
deriving DecidableEq

/-- Replication status of a peer (peer::Status). -/
inductive Status where
  | notReplicated
  | replicated (role : Role) (user : User)
deriving DecidableEq

/-- A reported participant of a project (project::Peer). -/
inductive Peer where
  | local (peer_id : PeerId) (status : Status)
  | remote (peer_id : PeerId) (status : Status)
deriving DecidableEq

/-- Models project::Peer::replicated_remote: the (peer id, user) pair of a
remote peer whose status is Replicated. -/
def Peer.replicatedRemote : Peer → Option (PeerId × User)
  | .remote peer_id (.replicated _ user) => some (peer_id, user)
  | _ => none

/-- The storage substrate (librad storage), external to this layer: each
read primitive may fail with a store error; the tracking graph is the
mutable relation recorded in the store. -/
structure Storage where
  defaultRadSelf : Except StoreErr User
  projectOf : Urn → Option PeerId → Except StoreErr Project
  allMetadata : Except StoreErr (List (Except StoreErr Entity))
  getRadSelf : Urn → Except StoreErr User
  getRadSelfOf : Urn → PeerId → Except StoreErr User
  hasRef : Ref → Except StoreErr Bool
  radSignedRefs : Urn → Except StoreErr Refs
  radSignedRefsOf : Urn → PeerId → Except StoreErr Refs
  openRepo : Urn → Except StoreErr Unit
  tracking : List (Urn × PeerId)

/-- Models storage.track: records the relation; a no-op when it already
exists. -/
def storageTrack (st : Storage) (urn : Urn) (remote : PeerId) : Storage :=
  if (urn, remote) ∈ st.tracking then st
  else { st with tracking := st.tracking ++ [(urn, remote)] }

/-- Models storage.untrack: removes the relation and reports whether it
existed. -/
def storageUntrack (st : Storage) (urn : Urn) (remote : PeerId) : Bool × Storage :=
  (decide ((urn, remote) ∈ st.tracking),
   { st with tracking := st.tracking.filter (fun q => q ≠ (urn, remote)) })

/-- The peer ids recorded as tracked for a project (repo.tracked()). -/
def storageTracking (st : Storage) (urn : Urn) : List PeerId :=
  st.tracking.filterMap (fun q => if q.1 = urn then some q.2 else none)

/-- The state facade: the local peer's identity. -/
structure State where
  peerId : PeerId

/-- The world the mutating operations act on: the storage substrate, the
include artifact contents keyed by urn, plus logs of artifact
regenerations and gossip queries issued. -/
structure World where
  storage : Storage
  includes : Urn → Option (List (PeerId × User))
  includeUpdates : List Urn
  gossipQueries : List (Urn × Option PeerId)

/-- State::default_owner: read default_rad_self, swallowing any error after
logging (modelled by Except.toOption). -/
def default_owner (st : Storage) : Option User :=
  st.defaultRadSelf.toOption

/-- State::get_project: metadata_of for the urn, optionally scoped to a
peer's view. -/
def get_project (st : Storage) (urn : Urn) (peer : Option PeerId) : Except Error Project :=
  (st.projectOf urn peer).mapError Error.storage

/-- The flat_map closure of State::list_projects: skip an unreadable
entity, skip an entity whose rad/self cannot be read, drop an entity whose
rad/self is not the owner identity, and keep project entities. -/
def projectFilter (st : Storage) (owner : User) (entity : Except StoreErr Entity) :
    Option Project :=
  match entity with
  | .error _ => none
  | .ok entity =>
    match st.getRadSelf entity.urn with
    | .error _ => none
    | .ok radSelf =>
      if radSelf.urn = owner.urn then entity.tryMapProject else none

/-- State::list_projects: read the default owner (propagating failure),
then keep exactly the project entities whose rad/self resolves to the
owner's identity, skipping unreadable entities and unreadable
self-references. -/
def list_projects (st : Storage) : Except Error (List Project) := do
  let owner ← st.defaultRadSelf.mapError Error.storage
  let meta ← st.allMetadata.mapError Error.storage
  pure (meta.filterMap (projectFilter st owner))

/-- The entity loop of State::list_users: each unreadable entry aborts the
enumeration (the source applies the question-mark operator to it); user
entities are collected, others skipped. -/
def collectUsers : List (Except StoreErr Entity) → Except Error (List User)
  | [] => .ok []
  | e :: rest => do
    let entity ← e.mapError Error.storage
    let tail ← collectUsers rest
    match entity.tryMapUser with
    | some u => pure (u :: tail)
    | none => pure tail

/-- State::list_users: enumerate all user identity documents in the store. -/
def list_users (st : Storage) : Except Error (List User) := do
  let meta ← st.allMetadata.mapError Error.storage
  collectUsers meta

/-- State::list_owner_project_refs: rad_signed_refs of the local owner. -/
def list_owner_project_refs (st : Storage) (urn : Urn) : Except Error Refs :=
  (st.radSignedRefs urn).mapError Error.storage

/-- Models the RefLike parse of a branch name (external librad parser):
rejects the empty string, otherwise yields the name. -/
def parseRefLike (name : String) : Except Error String :=
  if name.isEmpty then .error Error.parseFailed else .ok name

/-- The remote normalization inside State::get_branch: a remote equal to
the local peer id is treated as no remote (local namespace). -/
def normalizeRemote (s : State) (remote : Option PeerId) : Option PeerId :=
  match remote with
  | some peer_id => if peer_id = s.peerId then none else some peer_id
  | none => none

/-- State::get_branch: default an absent branch name from the project's
default-branch field, parse it, normalize the remote, build the head
reference and return it exactly when it exists in storage, otherwise fail
with MissingRef carrying it. -/
def get_branch (s : State) (st : Storage) (urn : Urn) (remote : Option PeerId)
    (branch_name : Option String) : Except Error Ref := do
  let rawName ← match branch_name with
    | none => do
      let project ← get_project st urn none
      pure project.default_branch
    | some name => pure name
  let name ← parseRefLike rawName
  let remote := normalizeRemote s remote
  let reference := Ref.head urn remote name
  let ex ← (st.hasRef reference).mapError Error.storage
  if ex then pure reference else throw (Error.missingRef reference)

/-- Rust Result::or as used in find_default_branch: keep the first result
if it is Ok, otherwise the second result whatever it is. -/
def resultOr (a b : Except Error Ref) : Except Error Ref :=
  match a with
  | .ok r => .ok r
  | .error _ => b

/-- State::find_default_branch: resolve the declared default branch under
the owner namespace and under the first key-set peer's namespace, prefer
the owner result, map a surviving MissingRef to NoDefaultBranch and pass
any other surviving error through. -/
def find_default_branch (s : State) (st : Storage) (urn : Urn) : Except Error Ref := do
  let project ← get_project st urn none
  let peer := project.keys.head?.map PeerId.fromKey
  let default_branch := project.default_branch
  let owner := get_branch s st urn none (some default_branch)
  let peerRes := get_branch s st urn peer (some default_branch)
  match resultOr owner peerRes with
  | .ok reference => pure reference
  | .error (Error.missingRef _) => throw (Error.noDefaultBranch project.name urn)
  | .error err => throw err

/-- The status computation of State::tracked for one tracked peer: if the
peer's rad/self reference exists the peer is Replicated, with role
Maintainer when its identity urn is in the maintainer set and Contributor
otherwise; else NotReplicated. -/
def peerStatus (st : Storage) (project : Project) (urn : Urn) (peer_id : PeerId) :
    Except StoreErr Status := do
  let hasSelf ← st.hasRef (Ref.radSelf urn peer_id)
  if hasSelf then
    let user ← st.getRadSelfOf urn peer_id
    if project.maintainers.contains user.urn then
      pure (Status.replicated Role.maintainer user)
    else
      pure (Status.replicated Role.contributor user)
  else
    pure Status.notReplicated

/-- The per-peer loop of State::tracked over the tracked peer ids. -/
def trackedPeers (st : Storage) (project : Project) (urn : Urn) :
    List PeerId → Except Error (List Peer)
  | [] => .ok []
  | peer_id :: rest => do
    let status ← (peerStatus st project urn peer_id).mapError Error.storage
    let tail ← trackedPeers st project urn rest
    pure (Peer.remote peer_id status :: tail)

/-- State::tracked: resolve the project, open its repo and report every
tracked peer id with its replication status. -/
def tracked (s : State) (st : Storage) (urn : Urn) : Except Error (List Peer) := do
  let project ← get_project st urn none
  let _ ← (st.openRepo urn).mapError Error.storage
  trackedPeers st project urn (storageTracking st urn)

/-- State::list_project_peers: the local peer (always Replicated; Tracker
when the owner has no head refs for the project, else Maintainer when the
owner is a maintainer, else Contributor) prepended to the remote peers
from tracked.  A missing default owner is a fatal expect in the source,
modelled as the distinguished error panicNoOwner. -/
def list_project_peers (s : State) (st : Storage) (urn : Urn) : Except Error (List Peer) := do
  let project ← get_project st urn none
  let owner ← match default_owner st with
    | some owner => pure owner
    | none => throw Error.panicNoOwner
  let refs ← list_owner_project_refs st urn
  let status :=
    if refs.heads.isEmpty then Status.replicated Role.tracker owner
    else if project.maintainers.contains owner.urn then
      Status.replicated Role.maintainer owner
    else Status.replicated Role.contributor owner
  let remotes ← tracked s st urn
  pure (Peer.local s.peerId status :: remotes)

/-- State::update_include: recompute the tracked peers, keep the
replicated remotes and fully rewrite the include artifact for the urn; on
failure of the tracked computation nothing is written. -/
def update_include (s : State) (w : World) (urn : Urn) : Except Error Urn × World :=
  match tracked s w.storage urn with
  | .error e => (.error e, w)
  | .ok peers =>
    let content := peers.filterMap Peer.replicatedRemote
    (.ok urn,
     { w with
        includes := fun u => if u = urn then some content else w.includes u,
        includeUpdates := w.includeUpdates ++ [urn] })

/-- State::track: record the relation in storage, issue a gossip query for
the peer, then regenerate the include artifact. -/
def track (s : State) (w : World) (urn : Urn) (remote : PeerId) :
    Except Error Unit × World :=
  let st1 := storageTrack w.storage urn remote
  let w1 := { w with
                storage := st1,
                gossipQueries := w.gossipQueries ++ [(urn, some remote)] }
  match update_include s w1 urn with
  | (.ok _, w2) => (.ok (), w2)
  | (.error e, w2) => (.error e, w2)

/-- State::untrack: remove the relation from storage and regenerate the
include artifact only when the relation actually existed. -/
def untrack (s : State) (w : World) (urn : Urn) (remote : PeerId) :
    Except Error Bool × World :=
  let res := storageUntrack w.storage urn remote
  let w1 := { w with storage := res.2 }
  if res.1 then
    match update_include s w1 urn with
    | (.ok _, w2) => (.ok true, w2)
    | (.error e, w2) => (.error e, w2)
  else
    (.ok false, w1)

/-! Concrete fixtures: small states, storages and worlds on which the
operations are evaluated. -/

/-- A facade whose local peer id is 99. -/
def sLocal : State := { peerId := 99 }

/-- The configured default owner identity. -/
def ownerU : User := { urn := 10, name := "owner" }

/-- A different identity owning a foreign project. -/
def otherU : User := { urn := 20, name := "other" }

/-- The identity claimed by a tracked remote peer. -/
def peerU : User := { urn := 42, name := "contributor" }

/-- A first user entity in the metadata enumeration. -/
def userA : User := { urn := 30, name := "annie" }

/-- A second user entity in the metadata enumeration. -/
def userB : User := { urn := 31, name := "kalt" }

/-- A project with declared default branch main, no maintainers recorded in
the modelled maintainer set, and one key-set entry for peer 1. -/
def projA : Project :=
  { urn := 0, name := "proj", default_branch := "main", maintainers := [], keys := [1] }

/-- Like projA but with the owner identity in the maintainer set. -/
def projM : Project :=
  { urn := 0, name := "proj", default_branch := "main", maintainers := [10], keys := [1] }

/-- A locally owned project entity. -/
def projB : Project :=
  { urn := 1, name := "owned", default_branch := "main", maintainers := [], keys := [] }

/-- A project entity owned by the other identity. -/
def projC : Project :=
  { urn := 2, name := "foreign", default_branch := "main", maintainers := [], keys := [] }

/-- A project entity whose self-reference cannot be read. -/
def projD : Project :=
  { urn := 3, name := "orphan", default_branch := "main", maintainers := [], keys := [] }

/-- A baseline storage: owner configured, projA resolvable, nothing else. -/
def stBase : Storage :=
  { defaultRadSelf := .ok ownerU,
    projectOf := fun _ _ => .ok projA,
    allMetadata := .ok [],
    getRadSelf := fun _ => .error 0,
    getRadSelfOf := fun _ _ => .error 0,
    hasRef := fun _ => .ok false,
    radSignedRefs := fun _ => .ok { heads := [] },
    radSignedRefsOf := fun _ _ => .ok { heads := [] },
    openRepo := fun _ => .ok (),
    tracking := [] }

/-- Ref table where only the peer-side default branch ref exists. -/
def hasRefPeerOnly (r : Ref) : Except StoreErr Bool :=
  if r = Ref.head 0 (some 1) "main" then .ok true else .ok false

/-- Ref table where the owner-side check fails and the peer-side exists. -/
def hasRefOwnerErr (r : Ref) : Except StoreErr Bool :=
  if r = Ref.head 0 none "main" then .error 7
  else if r = Ref.head 0 (some 1) "main" then .ok true
  else .ok false

/-- Ref table where the peer-side check fails and nothing else exists. -/
def hasRefPeerErr (r : Ref) : Except StoreErr Bool :=
  if r = Ref.head 0 (some 1) "main" then .error 8 else .ok false

/-- Ref table where only the rad/self ref of peer 5 on project 0 exists. -/
def hasRefSelfFive (r : Ref) : Except StoreErr Bool :=
  if r = Ref.radSelf 0 5 then .ok true else .ok false

/-- Ref table where only the owner-side default branch ref exists. -/
def hasRefOwnerOnly (r : Ref) : Except StoreErr Bool :=
  if r = Ref.head 0 none "main" then .ok true else .ok false

/-- Metadata list with an unreadable entry between two readable users. -/
def metaUsersErr : List (Except StoreErr Entity) :=
  [.ok (.user userA), .error 3, .ok (.user userB)]

/-- Metadata list ending in an unreadable entry. -/
def metaUsersTail : List (Except StoreErr Entity) :=
  [.ok (.user userA), .error 6]

/-- Metadata list with an owned project, a foreign project, a user entity
and a project with unreadable self-reference. -/
def metaOwned : List (Except StoreErr Entity) :=
  [.ok (.project projB), .ok (.project projC), .ok (.user otherU), .ok (.project projD)]

/-- Self-reference table: project 1 owned by the owner, project 2 by the
other identity, everything else unreadable. -/
def radSelfOwned (u : Urn) : Except StoreErr User :=
  if u = 1 then .ok ownerU
  else if u = 2 then .ok otherU
  else .error 5

/-- Self-reference-of table: peer 5 on project 0 claims peerU. -/
def radSelfOfFive (u : Urn) (q : PeerId) : Except StoreErr User :=
  if u = 0 ∧ q = 5 then .ok peerU else .error 0

/-- Storage where only the first key-set peer has the default branch ref. -/
def stResolve : Storage :=
  { stBase with hasRef := hasRefPeerOnly }

/-- Storage where checking the owner-side ref fails with a storage error
while the peer-side ref exists. -/
def stOwnerErr : Storage :=
  { stBase with hasRef := hasRefOwnerErr }

/-- Storage where the owner-side ref is absent and checking the peer-side
ref fails with a storage error. -/
def stPeerErr : Storage :=
  { stBase with hasRef := hasRefPeerErr }

/-- Storage whose metadata enumeration has an unreadable entry between two
readable user entities. -/
def stUsersErr : Storage :=
  { stBase with allMetadata := .ok metaUsersErr }

/-- Storage whose metadata enumeration ends in an unreadable entry. -/
def stUsersTail : Storage :=
  { stBase with allMetadata := .ok metaUsersTail }

/-- Storage holding an owned project, a foreign project, a user entity and
a project with unreadable self-reference. -/
def stOwned : Storage :=
  { stBase with allMetadata := .ok metaOwned, getRadSelf := radSelfOwned }

/-- Storage tracking remote peer 5 on project 0; the peer is replicated
(its rad/self exists), claims identity peerU, and has no branch refs. -/
def stTracked7 : Storage :=
  { stBase with tracking := [(0, 5)], hasRef := hasRefSelfFive, getRadSelfOf := radSelfOfFive }

/-- Like stTracked7 but the project lists the owner as maintainer and the
owner has a head ref for it. -/
def stPeers8 : Storage :=
  { stTracked7 with projectOf := fun _ _ => .ok projM, radSignedRefs := fun _ => .ok { heads := ["main"] } }

/-- Storage where only the local-namespace default branch ref exists. -/
def stBranch9 : Storage :=
  { stBase with hasRef := hasRefOwnerOnly }

/-- Storage with no default owner configured: reading rad/self fails. -/
def stNoOwner : Storage := { stBase with defaultRadSelf := .error 9 }

/-- A world over stTracked7 with empty artifact and effect logs. -/
def wTracked : World :=
  { storage := stTracked7,
    includes := fun _ => none,
    includeUpdates := [],
    gossipQueries := [] }

/-! Reduction lemmas for the Except monad operations used by the proofs. -/

/-- Bind on a successful Except reduces to the continuation. -/
theorem bindOk {ε α β : Type} (a : α) (f : α → Except ε β) :
    (Except.ok a >>= f : Except ε β) = f a := rfl

/-- Bind on a failed Except keeps the error. -/
theorem bindErr {ε α β : Type} (e : ε) (f : α → Except ε β) :
    (Except.error e >>= f : Except ε β) = Except.error e := rfl

/-- mapError on a successful Except is the identity. -/
theorem mapErrorOk {ε ε2 α : Type} (a : α) (f : ε → ε2) :
    (Except.ok a : Except ε α).mapError f = Except.ok a := rfl

/-- mapError on a failed Except applies the function to the error. -/
theorem mapErrorErr {ε ε2 α : Type} (e : ε) (f : ε → ε2) :
    (Except.error e : Except ε α).mapError f = Except.error (f e) := rfl

/-- pure for Except is ok. -/
theorem pureOk {ε α : Type} (a : α) : (pure a : Except ε α) = Except.ok a := rfl

/-- throw for Except is error. -/
theorem throwErr {ε α : Type} (e : ε) : (throw e : Except ε α) = Except.error e := rfl

/-- C1: find_default_branch resolves the declared default branch both
under the local owner namespace and under the namespace of the first peer
id in the project key set; a successful owner-side resolution is
preferred, otherwise a successful peer-side resolution is returned, and
when both resolutions fail with MissingRef the result is NoDefaultBranch
carrying the project name and urn. -/
theorem find_default_branch_resolution (s : State) (st : Storage) (urn : Urn) (p : Project)
    (hp : get_project st urn none = .ok p) :
    (∀ r, get_branch s st urn none (some p.default_branch) = .ok r →
      find_default_branch s st urn = .ok r) ∧
    (∀ e r, get_branch s st urn none (some p.default_branch) = .error e →
      get_branch s st urn (p.keys.head?.map PeerId.fromKey) (some p.default_branch) = .ok r →
      find_default_branch s st urn = .ok r) ∧
    (∀ r1 r2,
      get_branch s st urn none (some p.default_branch) = .error (Error.missingRef r1) →
      get_branch s st urn (p.keys.head?.map PeerId.fromKey) (some p.default_branch) =
        .error (Error.missingRef r2) →
      find_default_branch s st urn = .error (Error.noDefaultBranch p.name urn)) := by
  refine ⟨?_, ?_, ?_⟩
  · intro r h
    simp only [find_default_branch, hp, bindOk, h, resultOr, pureOk]
  · intro e r h1 h2
    simp only [find_default_branch, hp, bindOk, h1, h2, resultOr, pureOk]
  · intro r1 r2 h1 h2
    simp only [find_default_branch, hp, bindOk, h1, h2, resultOr, throwErr]

/-- Witness for C1: on stResolve the owner lacks the default branch ref,
the first key-set peer has it, and resolution returns the peer reference. -/
theorem find_default_branch_resolution_witness :
    find_default_branch sLocal stResolve 0 = Except.ok (Ref.head 0 (some 1) "main") := by
  have h := find_default_branch_resolution sLocal stResolve 0 projA rfl
  exact h.2.1 (Error.missingRef (Ref.head 0 none "main")) (Ref.head 0 (some 1) "main")
    (by decide) (by decide)

/-- C2 counterexample: on stOwnerErr the owner-side resolution fails with
a storage error (not MissingRef), yet find_default_branch does not
propagate it: the peer-side success is returned instead, refuting the
claim that any non-MissingRef error from either resolution reaches the
caller. -/
theorem find_default_branch_swallow_cex :
    get_branch sLocal stOwnerErr 0 none (some "main") = Except.error (Error.storage 7) ∧
    find_default_branch sLocal stOwnerErr 0 = Except.ok (Ref.head 0 (some 1) "main") := by
  exact ⟨by decide, by decide⟩

/-- C2 amended: an owner-side error (of any kind) is never itself
propagated; when the owner-side resolution fails the result is determined
by the peer-side resolution alone, and a non-MissingRef error of that
peer-side resolution is propagated verbatim. -/
theorem find_default_branch_error_prop (s : State) (st : Storage) (urn : Urn) (p : Project)
    (e eo : Error)
    (hp : get_project st urn none = .ok p)
    (hOwner : get_branch s st urn none (some p.default_branch) = .error eo)
    (hPeer : get_branch s st urn (p.keys.head?.map PeerId.fromKey) (some p.default_branch) =
      .error e)
    (he : e.isMissingRef = false) :
    find_default_branch s st urn = .error e := by
  simp only [find_default_branch, hp, bindOk, hOwner, hPeer, resultOr, throwErr]
  cases e with
  | missingRef r => simp [Error.isMissingRef] at he
  | storage e2 => rfl
  | noDefaultBranch n u => rfl
  | parseFailed => rfl
  | panicNoOwner => rfl

/-- Witness for C2 amended: on stPeerErr the owner-side ref is missing and
the peer-side check fails with storage error 8, which is propagated. -/
theorem find_default_branch_error_prop_witness :
    find_default_branch sLocal stPeerErr 0 = Except.error (Error.storage 8) := by
  exact find_default_branch_error_prop sLocal stPeerErr 0 projA (Error.storage 8)
    (Error.missingRef (Ref.head 0 none "main")) (by decide) (by decide) (by decide) (by decide)

/-- Effect summary of update_include: on success the urn is appended to
the regeneration log and the storage and gossip log are untouched; on
failure the world is returned unchanged. -/
theorem update_include_effects (s : State) (w : World) (urn : Urn) :
    (∀ u2, (update_include s w urn).1 = .ok u2 →
      (update_include s w urn).2.includeUpdates = w.includeUpdates ++ [urn] ∧
      (update_include s w urn).2.storage = w.storage ∧
      (update_include s w urn).2.gossipQueries = w.gossipQueries) ∧
    (∀ e, (update_include s w urn).1 = .error e → (update_include s w urn).2 = w) := by
  unfold update_include
  cases h : tracked s w.storage urn <;> simp

/-- Shape of untrack when the relation was not present: it reports false
and only rewrites the tracking list to its (unchanged) filtered form. -/
theorem untrack_not_tracked (s : State) (w : World) (urn : Urn) (remote : PeerId)
    (hmem : (urn, remote) ∉ w.storage.tracking) :
    untrack s w urn remote =
      (.ok false, { w with storage := (storageUntrack w.storage urn remote).2 }) := by
  simp [untrack, storageUntrack, hmem]

/-- Shape of untrack when the relation was present: the result is that of
regenerating the include artifact over the filtered storage. -/
theorem untrack_tracked (s : State) (w : World) (urn : Urn) (remote : PeerId)
    (hmem : (urn, remote) ∈ w.storage.tracking) :
    untrack s w urn remote =
      match update_include s { w with storage := (storageUntrack w.storage urn remote).2 } urn with
      | (.ok _, w2) => (.ok true, w2)
      | (.error e, w2) => (.error e, w2) := by
  simp [untrack, storageUntrack, hmem]

/-- C3: untrack returns false exactly when no relation existed; a true
result implies the relation existed and holds exactly when the include
artifact was regenerated; untracking a never-tracked peer leaves the
artifact contents, the regeneration log and the tracking graph unchanged. -/
theorem untrack_spec (s : State) (w : World) (urn : Urn) (remote : PeerId) :
    ((untrack s w urn remote).1 = .ok false ↔ (urn, remote) ∉ w.storage.tracking) ∧
    ((untrack s w urn remote).1 = .ok true → (urn, remote) ∈ w.storage.tracking) ∧
    ((untrack s w urn remote).1 = .ok true ↔
      (untrack s w urn remote).2.includeUpdates = w.includeUpdates ++ [urn]) ∧
    ((urn, remote) ∉ w.storage.tracking →
      (untrack s w urn remote).2.includes = w.includes ∧
      (untrack s w urn remote).2.includeUpdates = w.includeUpdates ∧
      (untrack s w urn remote).2.storage.tracking = w.storage.tracking) := by
  by_cases hmem : (urn, remote) ∈ w.storage.tracking
  · have heff := update_include_effects s
      { w with storage := (storageUntrack w.storage urn remote).2 } urn
    cases hpair : update_include s
        { w with storage := (storageUntrack w.storage urn remote).2 } urn with
    | mk r1 w2 =>
      rw [hpair] at heff
      rw [untrack_tracked s w urn remote hmem, hpair]
      cases r1 with
      | ok u =>
        have h1 := (heff.1 u rfl).1
        simp at h1
        refine ⟨by simp [hmem], fun _ => hmem, ?_, fun hn => absurd hmem hn⟩
        simp [h1]
      | error e =>
        have h2 := heff.2 e rfl
        refine ⟨by simp [hmem], fun h => by simp at h, ?_, fun hn => absurd hmem hn⟩
        rw [h2]
        simp
  · rw [untrack_not_tracked s w urn remote hmem]
    refine ⟨by simp [hmem], by simp, by simp, fun _ => ⟨rfl, rfl, ?_⟩⟩
    simp only [storageUntrack]
    apply List.filter_eq_self.mpr
    intro a ha
    simp only [ne_eq, decide_eq_true_eq]
    exact fun hax => hmem (hax ▸ ha)

/-- Witness for C3: on wTracked the pair (0, 5) is tracked, untrack
reports true and the regeneration log gains the urn. -/
theorem untrack_spec_witness :
    (untrack sLocal wTracked 0 5).1 = Except.ok true ∧ (0, 5) ∈ wTracked.storage.tracking ∧
    (untrack sLocal wTracked 0 5).2.includeUpdates = [0] := by
  have h := untrack_spec sLocal wTracked 0 5
  refine ⟨by decide, h.2.1 (by decide), ?_⟩
  have h3 := h.2.2.1.mp (by decide)
  simpa using h3

/-- The relation is present after storageTrack. -/
theorem storageTrack_mem (st : Storage) (urn : Urn) (remote : PeerId) :
    (urn, remote) ∈ (storageTrack st urn remote).tracking := by
  unfold storageTrack
  by_cases h : (urn, remote) ∈ st.tracking
  · simp [h]
  · simp [h]

/-- storageTrack is a storage no-op when the relation already exists. -/
theorem storageTrack_noop (st : Storage) (urn : Urn) (remote : PeerId)
    (h : (urn, remote) ∈ st.tracking) : storageTrack st urn remote = st := by
  simp [storageTrack, h]

/-- Shape of track: record the relation, log the gossip query, then defer
to update_include. -/
theorem track_shape (s : State) (w : World) (urn : Urn) (remote : PeerId) :
    track s w urn remote =
      match update_include s
        { w with storage := storageTrack w.storage urn remote,
                 gossipQueries := w.gossipQueries ++ [(urn, some remote)] } urn with
      | (.ok _, w2) => (.ok (), w2)
      | (.error e, w2) => (.error e, w2) := rfl

/-- C4: track always issues exactly one gossip query for the peer, records
the relation (a storage no-op when already tracked), and regenerates the
include artifact exactly when it returns success — also on a call for an
already-tracked peer. -/
theorem track_spec (s : State) (w : World) (urn : Urn) (remote : PeerId) :
    ((track s w urn remote).2.gossipQueries = w.gossipQueries ++ [(urn, some remote)]) ∧
    ((urn, remote) ∈ (track s w urn remote).2.storage.tracking) ∧
    ((urn, remote) ∈ w.storage.tracking →
      (track s w urn remote).2.storage.tracking = w.storage.tracking) ∧
    ((track s w urn remote).1 = .ok () ↔
      (track s w urn remote).2.includeUpdates = w.includeUpdates ++ [urn]) := by
  have heff := update_include_effects s
    { w with storage := storageTrack w.storage urn remote,
             gossipQueries := w.gossipQueries ++ [(urn, some remote)] } urn
  cases hpair : update_include s
      { w with storage := storageTrack w.storage urn remote,
               gossipQueries := w.gossipQueries ++ [(urn, some remote)] } urn with
  | mk r1 w2 =>
    rw [hpair] at heff
    rw [track_shape, hpair]
    cases r1 with
    | ok u =>
      obtain ⟨h1, h2, h3⟩ := heff.1 u rfl
      simp at h1 h2 h3
      refine ⟨h3, ?_, ?_, by simp [h1]⟩
      · rw [h2]
        exact storageTrack_mem w.storage urn remote
      · intro hmem
        rw [h2, storageTrack_noop w.storage urn remote hmem]
    | error e =>
      have h2 := heff.2 e rfl
      simp at h2
      refine ⟨by rw [h2], ?_, ?_, ?_⟩
      · rw [h2]
        exact storageTrack_mem w.storage urn remote
      · intro hmem
        rw [h2, storageTrack_noop w.storage urn remote hmem]
      · constructor
        · intro h; simp at h
        · intro h
          rw [h2] at h
          simp at h

/-- Witness for C4: on wTracked tracking the fresh peer 7 issues the
gossip query, records the relation and regenerates the artifact. -/
theorem track_spec_witness :
    (track sLocal wTracked 0 7).2.gossipQueries = [(0, some 7)] ∧
    (0, 7) ∈ (track sLocal wTracked 0 7).2.storage.tracking := by
  have h := track_spec sLocal wTracked 0 7
  exact ⟨by simpa using h.1, h.2.1⟩

/-- C5 counterexample: with an unreadable entry between two readable user
entities, list_users does not skip the entry and enumerate the users; it
aborts with the entry's storage error, refuting the claim that unreadable
entries are skipped. -/
theorem list_users_abort_cex :
    list_users stUsersErr ≠ Except.ok [userA, userB] ∧
    list_users stUsersErr = Except.error (Error.storage 3) := by
  exact ⟨by decide, by decide⟩

/-- C5 amended: list_users enumerates user documents only up to the first
unreadable metadata entry; such an entry aborts the enumeration and its
storage error is propagated. -/
theorem list_users_aborts (st : Storage) (l1 l2 : List (Except StoreErr Entity)) (e : StoreErr)
    (hmeta : st.allMetadata = .ok (l1 ++ Except.error e :: l2))
    (hok : ∀ x ∈ l1, x.toOption.isSome = true) :
    list_users st = .error (Error.storage e) := by
  have hcollect : ∀ l0 : List (Except StoreErr Entity),
      (∀ x ∈ l0, x.toOption.isSome = true) →
      collectUsers (l0 ++ Except.error e :: l2) = .error (Error.storage e) := by
    intro l0
    induction l0 with
    | nil =>
      intro _
      simp [collectUsers, mapErrorErr, bindErr]
    | cons x rest ih =>
      intro hok0
      have hx : x.toOption.isSome = true := hok0 x (by simp)
      have ih2 := ih (fun y hy => hok0 y (by simp [hy]))
      cases x with
      | error e2 => simp [Except.toOption] at hx
      | ok ent =>
        simp only [List.cons_append, collectUsers, mapErrorOk, bindOk, List.append_eq, ih2,
          bindErr]
  simp only [list_users, hmeta, mapErrorOk, bindOk]
  exact hcollect l1 hok

/-- Witness for C5 amended: a readable user entity followed by an
unreadable entry makes list_users fail with that entry's error. -/
theorem list_users_aborts_witness :
    list_users stUsersTail = Except.error (Error.storage 6) := by
  exact list_users_aborts stUsersTail [Except.ok (Entity.user userA)] [] 6 (by decide) (by decide)

/-- Characterization of the list_projects flat_map closure: it yields a
project exactly for a readable project entity whose self-reference reads
successfully and resolves to the owner identity. -/
theorem projectFilter_eq_some (st : Storage) (owner : User) (x : Except StoreErr Entity)
    (p : Project) :
    projectFilter st owner x = some p ↔
      (x = .ok (Entity.project p) ∧ ∃ u, st.getRadSelf p.urn = .ok u ∧ u.urn = owner.urn) := by
  cases x with
  | error e => simp [projectFilter]
  | ok ent =>
    cases ent with
    | user u2 =>
      constructor
      · intro h
        exfalso
        simp only [projectFilter] at h
        cases hrs : st.getRadSelf (Entity.user u2).urn with
        | error e2 => rw [hrs] at h; simp at h
        | ok rs =>
          rw [hrs] at h
          by_cases hu : rs.urn = owner.urn <;> simp [hu, Entity.tryMapUser, Entity.tryMapProject] at h
      · rintro ⟨h, _⟩
        simp at h
    | project q =>
      constructor
      · intro h
        simp only [projectFilter] at h
        cases hrs : st.getRadSelf (Entity.project q).urn with
        | error e2 => rw [hrs] at h; simp at h
        | ok rs =>
          rw [hrs] at h
          by_cases hu : rs.urn = owner.urn
          · simp [hu, Entity.tryMapProject] at h
            subst h
            refine ⟨rfl, rs, ?_, hu⟩
            simpa [Entity.urn] using hrs
          · simp [hu] at h
      · rintro ⟨h, u, hu, huo⟩
        obtain rfl : q = p := by simpa using h
        simp only [projectFilter, Entity.urn]
        rw [hu]
        simp [huo, Entity.tryMapProject]

/-- C6: given a configured owner and readable metadata iterator,
list_projects succeeds and returns exactly the project documents whose
self-reference reads successfully and resolves to the owner identity;
entities with unreadable self-references are skipped and projects owned by
a different identity are never included. -/
theorem list_projects_owned (st : Storage) (owner : User) (l : List (Except StoreErr Entity))
    (hself : st.defaultRadSelf = .ok owner)
    (hmeta : st.allMetadata = .ok l) :
    ∃ ps, list_projects st = .ok ps ∧
      ∀ p : Project, p ∈ ps ↔
        (Except.ok (Entity.project p) ∈ l ∧
          ∃ u, st.getRadSelf p.urn = .ok u ∧ u.urn = owner.urn) := by
  refine ⟨l.filterMap (projectFilter st owner), ?_, ?_⟩
  · simp only [list_projects, hself, hmeta, mapErrorOk, bindOk, pureOk]
  · intro p
    rw [List.mem_filterMap]
    constructor
    · rintro ⟨x, hx, hfx⟩
      obtain ⟨h1, h2⟩ := (projectFilter_eq_some st owner x p).mp hfx
      exact ⟨h1 ▸ hx, h2⟩
    · rintro ⟨hmem, hu⟩
      exact ⟨_, hmem, (projectFilter_eq_some st owner _ p).mpr ⟨rfl, hu⟩⟩

/-- Witness for C6: on stOwned the enumeration returns exactly the
locally-owned project, never the foreign one, and the theorem instance
places the owned project in the result. -/
theorem list_projects_owned_witness :
    list_projects stOwned = Except.ok [projB] ∧ projB ∈ [projB] := by
  obtain ⟨ps, hps, hiff⟩ := list_projects_owned stOwned ownerU metaOwned (by decide) (by decide)
  have hmem : projB ∈ ps := (hiff projB).mpr ⟨by decide, ownerU, by decide, by decide⟩
  have heq : list_projects stOwned = Except.ok [projB] := by decide
  have hinj : ps = [projB] := Except.ok.inj (hps.symm.trans heq)
  exact ⟨heq, hinj ▸ hmem⟩

/-- C7 counterexample: peer 5 is reported Replicated by tracked, has no
branch refs at all and is not in the maintainer set, yet its role is
Contributor — not Tracker as the claim states. -/
theorem tracked_role_cex :
    tracked sLocal stTracked7 0 =
      Except.ok [Peer.remote 5 (Status.replicated Role.contributor peerU)] ∧
    stTracked7.radSignedRefsOf 0 5 = Except.ok (Refs.mk []) ∧
    peerU.urn ∉ projA.maintainers := by
  exact ⟨by decide, by decide, by decide⟩

/-- Role analysis of the per-peer loop of tracked: every replicated remote
peer it reports carries role Maintainer exactly when its identity urn is
in the maintainer set and Contributor otherwise; branch refs are never
consulted and Tracker is never assigned. -/
theorem trackedPeers_roles (st : Storage) (p : Project) (urn : Urn) :
    ∀ ids peers, trackedPeers st p urn ids = .ok peers →
    ∀ pid role u, Peer.remote pid (Status.replicated role u) ∈ peers →
    role = if p.maintainers.contains u.urn then Role.maintainer else Role.contributor := by
  intro ids
  induction ids with
  | nil =>
    intro peers h pid role u hmem
    simp only [trackedPeers] at h
    obtain rfl : [] = peers := Except.ok.inj h
    simp at hmem
  | cons i rest ih =>
    intro peers h pid role u hmem
    simp only [trackedPeers] at h
    cases hst : peerStatus st p urn i with
    | error e =>
      rw [hst] at h
      simp [mapErrorErr, bindErr] at h
    | ok status =>
      rw [hst] at h
      simp only [mapErrorOk, bindOk] at h
      cases htl : trackedPeers st p urn rest with
      | error e =>
        rw [htl] at h
        simp [bindErr] at h
      | ok tail =>
        rw [htl] at h
        simp only [bindOk, pureOk] at h
        obtain rfl : Peer.remote i status :: tail = peers := Except.ok.inj h
        rcases List.mem_cons.mp hmem with hhd | htail2
        · obtain ⟨rfl, rfl⟩ : pid = i ∧ Status.replicated role u = status := by
            injection hhd with h1 h2
            exact ⟨h1, h2⟩
          simp only [peerStatus] at hst
          cases hhr : st.hasRef (Ref.radSelf urn pid) with
          | error e =>
            rw [hhr] at hst
            simp [bindErr] at hst
          | ok b =>
            rw [hhr] at hst
            simp only [bindOk] at hst
            cases b with
            | false =>
              rw [if_neg (by simp), pureOk] at hst
              exact Status.noConfusion (Except.ok.inj hst)
            | true =>
              rw [if_pos rfl] at hst
              cases hgr : st.getRadSelfOf urn pid with
              | error e =>
                rw [hgr] at hst
                simp [bindErr] at hst
              | ok user =>
                rw [hgr] at hst
                simp only [bindOk] at hst
                by_cases hm : p.maintainers.contains user.urn = true
                · rw [if_pos hm, pureOk] at hst
                  obtain ⟨h1, h2⟩ := Status.replicated.inj (Except.ok.inj hst)
                  subst h2
                  rw [← h1, if_pos hm]
                · rw [if_neg hm, pureOk] at hst
                  obtain ⟨h1, h2⟩ := Status.replicated.inj (Except.ok.inj hst)
                  subst h2
                  rw [← h1, if_neg hm]
        · exact ih tail htl pid role u htail2

/-- C7 amended: every remote peer reported by tracked with Replicated
status has role Maintainer exactly when its identity urn is in the
project maintainer set and Contributor otherwise; Tracker is never
derived for remote peers (their branch refs are not consulted). -/
theorem tracked_remote_roles (s : State) (st : Storage) (urn : Urn) (p : Project)
    (peers : List Peer) (pid : PeerId) (role : Role) (u : User)
    (hp : get_project st urn none = .ok p)
    (ht : tracked s st urn = .ok peers)
    (hmem : Peer.remote pid (Status.replicated role u) ∈ peers) :
    role = if p.maintainers.contains u.urn then Role.maintainer else Role.contributor := by
  simp only [tracked, hp, bindOk] at ht
  cases hop : st.openRepo urn with
  | error e =>
    rw [hop] at ht
    simp [mapErrorErr, bindErr] at ht
  | ok v =>
    rw [hop] at ht
    simp only [mapErrorOk, bindOk] at ht
    exact trackedPeers_roles st p urn _ _ ht pid role u hmem

/-- Witness for C7 amended: the replicated non-maintainer remote peer of
stTracked7 is derived as Contributor. -/
theorem tracked_remote_roles_witness :
    Role.contributor =
      if projA.maintainers.contains peerU.urn then Role.maintainer else Role.contributor := by
  exact tracked_remote_roles sLocal stTracked7 0 projA
    [Peer.remote 5 (Status.replicated Role.contributor peerU)] 5 Role.contributor peerU
    (by decide) (by decide) (by decide)

/-- C8: with a configured default owner, list_project_peers returns the
single Local peer first — always Replicated, Tracker when the owner has no
head refs (taking precedence over the maintainer check), else Maintainer
when the owner is in the maintainer set, else Contributor — followed by
exactly the Remote entries produced by tracked. -/
theorem list_project_peers_local_first (s : State) (st : Storage) (urn : Urn)
    (p : Project) (owner : User) (refs : Refs) (remotes : List Peer)
    (hp : get_project st urn none = .ok p)
    (how : default_owner st = some owner)
    (hrefs : st.radSignedRefs urn = .ok refs)
    (ht : tracked s st urn = .ok remotes) :
    (refs.heads.isEmpty = true →
      list_project_peers s st urn =
        .ok (Peer.local s.peerId (Status.replicated Role.tracker owner) :: remotes)) ∧
    (refs.heads.isEmpty = false → p.maintainers.contains owner.urn = true →
      list_project_peers s st urn =
        .ok (Peer.local s.peerId (Status.replicated Role.maintainer owner) :: remotes)) ∧
    (refs.heads.isEmpty = false → p.maintainers.contains owner.urn = false →
      list_project_peers s st urn =
        .ok (Peer.local s.peerId (Status.replicated Role.contributor owner) :: remotes)) := by
  refine ⟨?_, ?_, ?_⟩
  · intro he
    have he2 : refs.heads = [] := by simpa using he
    simp [list_project_peers, list_owner_project_refs, hp, how, hrefs, ht, he2,
      mapErrorOk, bindOk, pureOk]
  · intro he hm
    have he2 : ¬ refs.heads = [] := by simpa using he
    have hm2 : owner.urn ∈ p.maintainers := by simpa using hm
    simp [list_project_peers, list_owner_project_refs, hp, how, hrefs, ht, he2, hm2,
      mapErrorOk, bindOk, pureOk]
  · intro he hm
    have he2 : ¬ refs.heads = [] := by simpa using he
    have hm2 : owner.urn ∉ p.maintainers := by simpa using hm
    simp [list_project_peers, list_owner_project_refs, hp, how, hrefs, ht, he2, hm2,
      mapErrorOk, bindOk, pureOk]

/-- Witness for C8: on stPeers8 the owner has head refs and is a
maintainer, so the Local entry is Maintainer and it precedes the tracked
remote Contributor. -/
theorem list_project_peers_local_first_witness :
    list_project_peers sLocal stPeers8 0 =
      Except.ok [Peer.local 99 (Status.replicated Role.maintainer ownerU),
        Peer.remote 5 (Status.replicated Role.contributor peerU)] := by
  have h := list_project_peers_local_first sLocal stPeers8 0 projM ownerU (Refs.mk ["main"])
    [Peer.remote 5 (Status.replicated Role.contributor peerU)]
    (by decide) (by decide) (by decide) (by decide)
  exact h.2.1 (by decide) (by decide)

/-- C9: get_branch defaults an absent branch name from the project's
default-branch field, normalizes a remote equal to the local peer id to
the local namespace, and (when the name parses and the existence check
answers) returns the constructed reference exactly when it exists,
failing with MissingRef carrying that reference otherwise. -/
theorem get_branch_spec (s : State) (st : Storage) (urn : Urn) (remote : Option PeerId)
    (p : Project) (name : String) (b : Bool)
    (hp : get_project st urn none = .ok p) :
    (get_branch s st urn remote none = get_branch s st urn remote (some p.default_branch)) ∧
    (get_branch s st urn (some s.peerId) (some name) = get_branch s st urn none (some name)) ∧
    (name.isEmpty = false →
      st.hasRef (Ref.head urn (normalizeRemote s remote) name) = .ok b →
      get_branch s st urn remote (some name) =
        (if b then .ok (Ref.head urn (normalizeRemote s remote) name)
         else .error (Error.missingRef (Ref.head urn (normalizeRemote s remote) name)))) := by
  refine ⟨?_, ?_, ?_⟩
  · simp [get_branch, hp, bindOk, pureOk]
  · simp [get_branch, normalizeRemote]
  · intro hn hr
    simp [get_branch, parseRefLike, hn, hr, mapErrorOk, bindOk, pureOk, throwErr]

/-- Witness for C9: on stBranch9 a remote equal to the local peer id is
normalized away and the existing local-namespace ref is returned. -/
theorem get_branch_spec_witness :
    get_branch sLocal stBranch9 0 (some 99) (some "main") =
      Except.ok (Ref.head 0 none "main") := by
  have h := (get_branch_spec sLocal stBranch9 0 (some 99) projA "main" true (by decide)).2.2
    (by decide) (by decide)
  simpa using h

/-- C10: with no default owner configured (reading rad/self fails),
list_projects propagates the storage error rather than returning an empty
list, while default_owner swallows the same failure and returns none. -/
theorem list_projects_requires_owner (st : Storage) (e : StoreErr)
    (h : st.defaultRadSelf = .error e) :
    list_projects st = .error (Error.storage e) ∧ default_owner st = none := by
  constructor
  · simp [list_projects, h, mapErrorErr, bindErr]
  · simp [default_owner, h, Except.toOption]

/-- Witness for C10: on stNoOwner list_projects fails with the storage
error while default_owner reports no owner. -/
theorem list_projects_requires_owner_witness :
    list_projects stNoOwner = Except.error (Error.storage 9) ∧
    default_owner stNoOwner = none := by
  exact list_projects_requires_owner stNoOwner 9 (by decide)
